import Mathlib

/-!
Shallow embedding of the scheduled-expiry (giveaway / poll finalization),
counter-allocation (ticket numbering) and poll-ballot subsystems of the
Discord-NPN-Bot repository, together with proofs of the specification
claims about them.

Conventions of the embedding:
* database tables are lists of row structures, in insertion order;
  `db.fetchone` is `List.find?` (first matching row), `db.fetchall` is
  `List.filter`;
* timestamps are integers; `end_time <= now` is integer comparison;
* each outbound Discord API call is represented by a boolean success flag
  in an environment record (the call either succeeds or raises, and a
  raise propagates to the enclosing Python `try/except`), and the
  observable effects of a handler run are returned as an ordered action
  trace;
* `random.sample(population, k)` is modelled by a seed-parameterised
  deterministic selection of `k` distinct positions (`randomSample`).
-/

namespace NPNBot

/-- A Discord user as seen through `reaction.users()`: an id plus the
`user.bot` flag that `_end_giveaway` filters on. -/
structure DiscordUser where
  id : Nat
  bot : Bool
deriving Repr, DecidableEq

/-- Row of the `giveaways` table (the columns the scheduler reads).
`ended` is the `finalized` flag of the spec (`ended INTEGER DEFAULT 0`). -/
structure GiveawayRow where
  giveaway_id : Nat
  guild_id : Nat
  channel_id : Nat
  message_id : Nat
  prize : String
  winners_count : Nat
  end_time : Int
  ended : Bool
deriving Repr, DecidableEq

/-- Observable actions performed by one `_end_giveaway` run, in program
order.  `setEnded` is the `UPDATE giveaways SET ended = 1` write;
`logError` is the `print` in the enclosing `except Exception` handler. -/
inductive GAction where
  | sendNoOne
  | sendNoValid
  | sendWinners (winners : List Nat)
  | setEnded
  | editOriginal
  | logError
deriving Repr, DecidableEq

/-- Environment of one `_end_giveaway` run: which Discord-side lookups
succeed and which outbound calls succeed.  `tadaReaction` is the result of
`discord.utils.get(message.reactions, emoji = tada)`: `none` when the
reaction object is absent, otherwise the users currently on the reaction. -/
structure GiveawayEnv where
  guildExists : Bool
  channelExists : Bool
  fetchMessageOk : Bool
  messageIsNone : Bool
  tadaReaction : Option (List DiscordUser)
  fetchUsersOk : Bool
  sendOk : Bool
  editOk : Bool
  seed : Nat
deriving Repr, DecidableEq

/-- Deterministic model of `random.sample(l, k)`: repeatedly pick a
position from the remaining population (driven by the seed) and remove
it, so the result is `min k l.length` elements at pairwise-distinct
positions of `l`. -/
def randomSample {α : Type} : Nat → List α → Nat → List α
  | _, _, 0 => []
  | _, [], _ + 1 => []
  | seed, a :: l, k + 1 =>
    let i := seed % (a :: l).length
    (a :: l).get ⟨i, Nat.mod_lt _ (by simp)⟩ ::
      randomSample (seed / (a :: l).length) ((a :: l).eraseIdx i) k

/-- The non-bot users collected by the `async for user in reaction.users()`
loop of `_end_giveaway`, projected to their ids. -/
def nonBotEntrants (us : List DiscordUser) : List Nat :=
  (us.filter (fun u => !u.bot)).map (fun u => u.id)

/-- One `_end_giveaway(giveaway)` run, as its ordered action trace.
Mirrors src/cogs/giveaways.py lines 48-118: missing guild or channel
returns silently; any raising call inside the `try` jumps to the
`except Exception` handler (`logError`); the winners announcement
`channel.send` precedes the `UPDATE ... SET ended = 1`, which precedes
the best-effort `message.edit`. -/
def end_giveaway (env : GiveawayEnv) (g : GiveawayRow) : List GAction :=
  if env.guildExists = false then []
  else if env.channelExists = false then []
  else if env.fetchMessageOk = false then [GAction.logError]
  else if env.messageIsNone = true then []
  else
    match env.tadaReaction with
    | none =>
      if env.sendOk then [GAction.sendNoOne, GAction.setEnded]
      else [GAction.logError]
    | some us =>
      if env.fetchUsersOk = false then [GAction.logError]
      else
        let users := nonBotEntrants us
        if users.isEmpty then
          if env.sendOk then [GAction.sendNoValid, GAction.setEnded]
          else [GAction.logError]
        else
          let wc := min g.winners_count users.length
          let winners := randomSample env.seed users wc
          if env.sendOk then
            if env.editOk then
              [GAction.sendWinners winners, GAction.setEnded, GAction.editOriginal]
            else
              [GAction.sendWinners winners, GAction.setEnded, GAction.logError]
          else [GAction.logError]

/-- The `ended` column of the row after an `_end_giveaway` run: it becomes
true exactly when the run executed the `UPDATE giveaways SET ended = 1`. -/
def giveawayEndedAfter (env : GiveawayEnv) (g : GiveawayRow) : Bool :=
  g.ended || decide (GAction.setEnded ∈ end_giveaway env g)

/-- One scheduler tick (`check_giveaways`) restricted to a single row: the
query `SELECT * FROM giveaways WHERE ended = 0 AND end_time <= ?` selects
the row iff `ended` is false and the deadline has passed, and only then is
`_end_giveaway` invoked.  Returns the row afterwards plus the actions. -/
def tick_giveaway_row (env : GiveawayEnv) (now : Int) (g : GiveawayRow) :
    GiveawayRow × List GAction :=
  if g.ended = false ∧ g.end_time ≤ now then
    ({ g with ended := giveawayEndedAfter env g }, end_giveaway env g)
  else (g, [])

theorem randomSample_length {α : Type} (seed : Nat) (l : List α) (k : Nat) :
    (randomSample seed l k).length = min k l.length := by
  induction k generalizing seed l with
  | zero => simp [randomSample]
  | succ k ih =>
    cases l with
    | nil => simp [randomSample]
    | cons a t =>
      have hi : seed % (a :: t).length < (a :: t).length := Nat.mod_lt _ (by simp)
      simp only [randomSample, List.length_cons]
      rw [ih]
      have he : ((a :: t).eraseIdx (seed % (t.length + 1))).length = t.length := by
        have hlt : seed % (t.length + 1) < (a :: t).length := by simpa using hi
        rw [List.length_eraseIdx_of_lt hlt]
        simp
      rw [he]
      omega

theorem randomSample_subset {α : Type} (seed : Nat) (l : List α) (k : Nat) :
    ∀ x ∈ randomSample seed l k, x ∈ l := by
  induction k generalizing seed l with
  | zero => simp [randomSample]
  | succ k ih =>
    cases l with
    | nil => simp [randomSample]
    | cons a t =>
      intro x hx
      simp only [randomSample, List.mem_cons] at hx
      rcases hx with hx | hx
      · rw [hx]; exact List.get_mem _ _ _
      · exact List.mem_of_mem_eraseIdx (ih _ _ x hx)

theorem randomSample_nodup {α : Type} (seed : Nat) (l : List α) (k : Nat)
    (h : l.Nodup) : (randomSample seed l k).Nodup := by
  induction k generalizing seed l with
  | zero => simp [randomSample]
  | succ k ih =>
    cases l with
    | nil => simp [randomSample]
    | cons a t =>
      simp only [randomSample, List.nodup_cons]
      constructor
      · intro hmem
        have hin : (a :: t).get ⟨seed % (a :: t).length, Nat.mod_lt _ (by simp)⟩ ∈
            (a :: t).eraseIdx (seed % (a :: t).length) :=
          randomSample_subset _ _ _ _ hmem
        rw [List.mem_eraseIdx_iff_getElem] at hin
        rcases hin with ⟨j, hj, hne, heq⟩
        simp only [List.get_eq_getElem] at heq
        exact hne ((h.getElem_inj_iff).mp heq)
      · exact ih _ _ (h.eraseIdx _)

/-- Row of the `polls` table.  The `options` column is stored as a JSON
string in SQLite and decoded with `json.loads` at every use site; the
embedding carries the decoded list directly. -/
structure PollRow where
  poll_id : Nat
  guild_id : Nat
  channel_id : Nat
  message_id : Nat
  question : String
  options : List String
  end_time : Int
  ended : Bool
deriving Repr, DecidableEq

/-- Row of the `poll_votes` table (PRIMARY KEY (poll_id, user_id)). -/
structure PollVoteRow where
  poll_id : Nat
  user_id : Nat
  option_index : Nat
deriving Repr, DecidableEq

/-- Payload of a raw reaction gateway event, the fields the voting cog
reads. -/
structure RawReactionPayload where
  user_id : Nat
  message_id : Nat
  guild_id : Nat
  channel_id : Nat
  emoji : String
deriving Repr, DecidableEq

/-- The `self.number_emojis` list of the voting cog. -/
def numberEmojis : List String :=
  ["1️⃣", "2️⃣", "3️⃣", "4️⃣", "5️⃣", "6️⃣", "7️⃣", "8️⃣", "9️⃣", "🔟"]

/-- Increment `counts[i]`, or `none` when `i` is out of range — the model
of the Python statement `vote_counts[vote['option_index']] += 1`, whose
out-of-range case raises `IndexError`. -/
def incrAt : List Nat → Nat → Option (List Nat)
  | [], _ => none
  | a :: rest, 0 => some ((a + 1) :: rest)
  | a :: rest, n + 1 => (incrAt rest n).map (fun tail => a :: tail)

/-- The tally loop of `_end_poll`: start from `[0] * len(options)` and add
one per stored ballot at its `option_index`; `none` models the
`IndexError` raised by an out-of-range index. -/
def tallyVotes (options : List String) (votes : List PollVoteRow) : Option (List Nat) :=
  votes.foldl (fun acc v => acc.bind (fun counts => incrAt counts v.option_index))
    (some (List.replicate options.length 0))

/-- Observable actions of one `_end_poll` run, in program order. -/
inductive PAction where
  | sendResults (counts : List Nat)
  | setEnded
  | editOriginal
  | logError
deriving Repr, DecidableEq

/-- Environment of one `_end_poll` run. -/
structure PollEnv where
  guildExists : Bool
  channelExists : Bool
  sendOk : Bool
  editOk : Bool
deriving Repr, DecidableEq

/-- One `_end_poll(poll)` run (src/cogs/voting.py lines 49-118) as its
ordered action trace.  Missing guild or channel returns silently; the
tally or the results formatting (which indexes `self.number_emojis[i]`
for every option) can raise, as can the results `channel.send`; all of
those jump to the `except Exception` handler before the
`UPDATE polls SET ended = 1` is reached.  The final `fetch_message` /
`edit` of the original announcement sits in an inner `try/except: pass`,
so its failure is swallowed after the write. -/
def end_poll (env : PollEnv) (p : PollRow) (votesTable : List PollVoteRow) :
    List PAction :=
  if env.guildExists = false then []
  else if env.channelExists = false then []
  else
    match tallyVotes p.options (votesTable.filter (fun v => v.poll_id == p.poll_id)) with
    | none => [PAction.logError]
    | some counts =>
      if numberEmojis.length < p.options.length then [PAction.logError]
      else if env.sendOk then
        if env.editOk then
          [PAction.sendResults counts, PAction.setEnded, PAction.editOriginal]
        else [PAction.sendResults counts, PAction.setEnded]
      else [PAction.logError]

/-- The `ended` column of the poll row after an `_end_poll` run. -/
def pollEndedAfter (env : PollEnv) (p : PollRow) (votesTable : List PollVoteRow) : Bool :=
  p.ended || decide (PAction.setEnded ∈ end_poll env p votesTable)

/-- One `check_polls` tick restricted to a single row: the query
`SELECT * FROM polls WHERE ended = 0 AND end_time <= ?` gates the call to
`_end_poll`. -/
def tick_poll_row (env : PollEnv) (now : Int) (p : PollRow)
    (votesTable : List PollVoteRow) : PollRow × List PAction :=
  if p.ended = false ∧ p.end_time ≤ now then
    ({ p with ended := pollEndedAfter env p votesTable }, end_poll env p votesTable)
  else (p, [])

/-- The `fetchone` on `polls` performed by the reaction-add listener:
first row with the message id and `ended = 0`. -/
def findPoll (polls : List PollRow) (messageId : Nat) : Option PollRow :=
  polls.find? (fun p => p.message_id == messageId && p.ended == false)

/-- The `poll_votes` writes of the `on_raw_reaction_add` listener of the
voting cog (src/cogs/voting.py lines 192-252): ignore the bot's own
reactions; look up an active poll by message id; map the emoji to an
option index via `self.number_emojis` and discard indices past the
option count; then either UPDATE the existing `(poll_id, user_id)` row's
`option_index` or INSERT a new row.  (The trailing removal of the user's
other reactions touches only Discord state, not the database.) -/
def on_raw_reaction_add (botUserId : Nat) (polls : List PollRow)
    (votes : List PollVoteRow) (payload : RawReactionPayload) : List PollVoteRow :=
  if payload.user_id == botUserId then votes
  else
    match findPoll polls payload.message_id with
    | none => votes
    | some poll =>
      match numberEmojis.findIdx? (fun e => e == payload.emoji) with
      | none => votes
      | some option_index =>
        if poll.options.length ≤ option_index then votes
        else if votes.any (fun v => v.poll_id == poll.poll_id && v.user_id == payload.user_id) then
          votes.map (fun v =>
            if v.poll_id == poll.poll_id && v.user_id == payload.user_id then
              { v with option_index := option_index }
            else v)
        else
          votes ++ [{ poll_id := poll.poll_id, user_id := payload.user_id,
                      option_index := option_index }]

/-- Row of the `ticket_config` table; `ticket_counter`, `category_id` and
`support_role_ids` columns are nullable. -/
structure TicketConfigRow where
  guild_id : Nat
  ticket_counter : Option Nat
  category_id : Option Nat
  support_role_ids : Option String
deriving Repr, DecidableEq

/-- The counter read of `_create_ticket_channel` under the lock:
`ticket_number = 1; if config and config['ticket_counter']:
ticket_number = config['ticket_counter'] + 1`.  Python truthiness makes
a missing row, a NULL counter and a zero counter all yield 1. -/
def allocateTicketNumber (config : Option TicketConfigRow) : Nat :=
  match config with
  | some c =>
    match c.ticket_counter with
    | some n => if n = 0 then 1 else n + 1
    | none => 1
  | none => 1

/-- The counter write of `_create_ticket_channel`: UPDATE the row when it
exists, otherwise INSERT a fresh one holding the allocated number. -/
def persistCounter (config : Option TicketConfigRow) (guildId n : Nat) : TicketConfigRow :=
  match config with
  | some c => { c with ticket_counter := some n }
  | none =>
    { guild_id := guildId, ticket_counter := some n, category_id := none,
      support_role_ids := none }

/-- The spec reading of the counter state: the guild's current counter,
0 when the row is absent or the column NULL. -/
def currentCounter (config : Option TicketConfigRow) : Nat :=
  match config with
  | some c => c.ticket_counter.getD 0
  | none => 0

/-- The numbers returned by `k` consecutive completed allocations for one
guild, starting from a given `ticket_config` state. -/
def allocSeq (config : Option TicketConfigRow) (guildId : Nat) : Nat → List Nat
  | 0 => []
  | k + 1 =>
    let n := allocateTicketNumber config
    n :: allocSeq (some (persistCounter config guildId n)) guildId k

/-- Row of the `tickets` table (the columns `_create_ticket_channel`
touches). -/
structure TicketRow where
  guild_id : Nat
  channel_id : Nat
  user_id : Nat
  status : String
deriving Repr, DecidableEq

/-- Environment of one `_create_ticket_channel` run: which channel ids
`guild.get_channel` resolves, and which outbound calls succeed. -/
structure TicketEnv where
  channelIds : List Nat
  categoryOk : Bool
  createChannelOk : Bool
  newChannelId : Nat
  sendOk : Bool
deriving Repr, DecidableEq

/-- Outcome of `_create_ticket_channel`: a rejection mentioning the
existing open ticket's channel, a created channel, or an error string
from the `except` branches. -/
inductive TicketResult where
  | rejected (channelId : Nat)
  | created (channelId : Nat)
  | failed
deriving Repr, DecidableEq

/-- The shared tail of `_create_ticket_channel` after the duplicate-open
check: category resolution (whose creation can raise Forbidden), the
locked counter read-modify-write, channel creation, the `tickets` INSERT,
and the initial in-channel message.  Note the INSERT precedes the send,
so a failed send still leaves the new row behind; a failed channel
creation happens after the counter write, consuming the number. -/
def createTicketBody (tickets : List TicketRow) (config : Option TicketConfigRow)
    (env : TicketEnv) (guildId userId : Nat) :
    TicketResult × List TicketRow × Option TicketConfigRow :=
  if env.categoryOk = false then (TicketResult.failed, tickets, config)
  else
    let n := allocateTicketNumber config
    let config2 := some (persistCounter config guildId n)
    if env.createChannelOk = false then (TicketResult.failed, tickets, config2)
    else
      let row : TicketRow :=
        { guild_id := guildId, channel_id := env.newChannelId, user_id := userId,
          status := "open" }
      if env.sendOk then (TicketResult.created env.newChannelId, tickets ++ [row], config2)
      else (TicketResult.failed, tickets ++ [row], config2)

/-- One `_create_ticket_channel(guild, user, reason)` run
(src/cogs/tickets.py lines 32-163).  The duplicate-open guard rejects
only when the stored channel id still resolves via `guild.get_channel`;
when it does not, control falls through to creation. -/
def create_ticket_channel (tickets : List TicketRow) (config : Option TicketConfigRow)
    (env : TicketEnv) (guildId userId : Nat) :
    TicketResult × List TicketRow × Option TicketConfigRow :=
  match tickets.find? (fun t =>
      t.guild_id == guildId && t.user_id == userId && t.status == "open") with
  | some t =>
    if env.channelIds.contains t.channel_id then
      (TicketResult.rejected t.channel_id, tickets, config)
    else createTicketBody tickets config env guildId userId
  | none => createTicketBody tickets config env guildId userId

/-- Row of the `reaction_roles` table. -/
structure ReactionRoleRow where
  message_id : Nat
  emoji : String
  role_id : Nat
  guild_id : Nat
deriving Repr, DecidableEq

/-- Discord-side effect of the reaction-role remove listener. -/
inductive RoleEffect where
  | removeRole (userId roleId : Nat)
deriving Repr, DecidableEq

/-- Environment of one reaction-remove dispatch. -/
structure RemoveEnv where
  guildExists : Bool
  memberExists : Bool
  roleExists : Bool
deriving Repr, DecidableEq

/-- The `on_raw_reaction_remove` listener of the reaction-roles cog
(src/cogs/reactionroles.py lines 64-104): a chain of guards followed by a
best-effort `member.remove_roles`.  It performs no database write at
all — it only reads `reaction_roles`. -/
def on_raw_reaction_remove_rr (botUserId : Nat) (rroles : List ReactionRoleRow)
    (env : RemoveEnv) (payload : RawReactionPayload) : List RoleEffect :=
  if payload.user_id == botUserId then []
  else
    match rroles.find? (fun r =>
        r.message_id == payload.message_id && r.emoji == payload.emoji) with
    | none => []
    | some r =>
      if env.guildExists = false then []
      else if env.memberExists = false then []
      else if env.roleExists = false then []
      else [RoleEffect.removeRole payload.user_id r.role_id]

/-- Database state shared by the poll and reaction-role cogs. -/
structure DbState where
  polls : List PollRow
  poll_votes : List PollVoteRow
  reaction_roles : List ReactionRoleRow
deriving Repr, DecidableEq

/-- Dispatch of a raw reaction-remove gateway event across the whole bot:
the reaction-roles cog owns the only `on_raw_reaction_remove` listener
(the voting cog registers none), so the database is returned unchanged
alongside the listener's Discord-side effects. -/
def dispatchReactionRemove (botUserId : Nat) (db : DbState) (env : RemoveEnv)
    (payload : RawReactionPayload) : DbState × List RoleEffect :=
  (db, on_raw_reaction_remove_rr botUserId db.reaction_roles env payload)

/-- State of the poll subsystem: the `polls` and `poll_votes` tables. -/
structure PollDb where
  polls : List PollRow
  votes : List PollVoteRow
deriving Repr, DecidableEq

/-- The operations of the running system that write the `polls` or
`poll_votes` tables: poll creation (`create_poll`, whose INSERT gets a
fresh AUTOINCREMENT primary key and `ended = 0`), the reaction-add
listener, and finalization's `UPDATE polls SET ended = 1`. -/
inductive PollStep : PollDb → PollDb → Prop where
  | create (db : PollDb) (p : PollRow)
      (hfresh : ∀ q ∈ db.polls, q.poll_id ≠ p.poll_id)
      (hended : p.ended = false) :
      PollStep db { polls := db.polls ++ [p], votes := db.votes }
  | reactionAdd (db : PollDb) (botUserId : Nat) (payload : RawReactionPayload) :
      PollStep db
        { polls := db.polls,
          votes := on_raw_reaction_add botUserId db.polls db.votes payload }
  | finalize (db : PollDb) (pollId : Nat) :
      PollStep db
        { polls := db.polls.map (fun q =>
            if q.poll_id = pollId then { q with ended := true } else q),
          votes := db.votes }

/-- Reachability of a poll-subsystem state from the empty database. -/
def PollReachable (db : PollDb) : Prop :=
  Relation.ReflTransGen PollStep { polls := [], votes := [] } db

theorem incrAt_some_of_lt (counts : List Nat) (i : Nat) (h : i < counts.length) :
    ∃ counts', incrAt counts i = some counts' ∧ counts'.length = counts.length := by
  induction counts generalizing i with
  | nil => simp at h
  | cons a rest ih =>
    cases i with
    | zero => exact ⟨(a + 1) :: rest, rfl, rfl⟩
    | succ n =>
      have hn : n < rest.length := by simpa using h
      obtain ⟨t, ht, hlen⟩ := ih n hn
      exact ⟨a :: t, by simp [incrAt, ht], by simp [hlen]⟩

theorem tallyFold_some (votes : List PollVoteRow) (bound : Nat) :
    ∀ acc : List Nat, acc.length = bound →
    (∀ v ∈ votes, v.option_index < bound) →
    ∃ counts,
      votes.foldl (fun a v => a.bind (fun c => incrAt c v.option_index)) (some acc) =
        some counts ∧ counts.length = bound := by
  induction votes with
  | nil => intro acc hacc _; exact ⟨acc, rfl, hacc⟩
  | cons v rest ih =>
    intro acc hacc hvalid
    have hv : v.option_index < acc.length := by
      rw [hacc]; exact hvalid v (List.mem_cons_self _ _)
    obtain ⟨acc', ha, hlen⟩ := incrAt_some_of_lt acc v.option_index hv
    have := ih acc' (hlen.trans hacc) (fun w hw => hvalid w (List.mem_cons_of_mem _ hw))
    simpa [ha] using this

theorem tallyVotes_some (options : List String) (votes : List PollVoteRow)
    (h : ∀ v ∈ votes, v.option_index < options.length) :
    ∃ counts, tallyVotes options votes = some counts ∧
      counts.length = options.length := by
  exact tallyFold_some votes options.length (List.replicate options.length 0)
    (by simp) h

/-- Invariant of the poll subsystem: poll ids are unique, and every
stored ballot points at an existing poll with an in-range option index. -/
def VotesValid (db : PollDb) : Prop :=
  (∀ p ∈ db.polls, ∀ q ∈ db.polls, p.poll_id = q.poll_id → p = q) ∧
  (∀ v ∈ db.votes, ∃ p ∈ db.polls, p.poll_id = v.poll_id ∧
    v.option_index < p.options.length)

theorem findPoll_mem (polls : List PollRow) (mid : Nat) (p : PollRow)
    (h : findPoll polls mid = some p) : p ∈ polls :=
  List.mem_of_find?_eq_some h

theorem reactionAdd_preserves_valid (botUserId : Nat) (polls : List PollRow)
    (votes : List PollVoteRow) (payload : RawReactionPayload)
    (h : ∀ v ∈ votes, ∃ p ∈ polls, p.poll_id = v.poll_id ∧
      v.option_index < p.options.length) :
    ∀ v ∈ on_raw_reaction_add botUserId polls votes payload,
      ∃ p ∈ polls, p.poll_id = v.poll_id ∧ v.option_index < p.options.length := by
  unfold on_raw_reaction_add
  split
  · exact h
  · split
    · exact h
    · rename_i poll hfind
      split
      · exact h
      · rename_i idx hidx
        split
        · exact h
        · rename_i hrange
          have hpoll : poll ∈ polls := findPoll_mem _ _ _ hfind
          have hlt : idx < poll.options.length := Nat.lt_of_not_le hrange
          split
          · intro v hv
            rw [List.mem_map] at hv
            obtain ⟨w, hw, hfw⟩ := hv
            by_cases hc : (w.poll_id == poll.poll_id && w.user_id == payload.user_id) = true
            · rw [if_pos hc] at hfw
              refine ⟨poll, hpoll, ?_, ?_⟩
              · have : w.poll_id = poll.poll_id := by
                  have := (Bool.and_eq_true _ _).mp hc
                  exact beq_iff_eq.mp this.1
                rw [← hfw]
                exact this.symm
              · rw [← hfw]
                exact hlt
            · rw [if_neg hc] at hfw
              rw [← hfw]
              exact h w hw
          · intro v hv
            rw [List.mem_append] at hv
            rcases hv with hv | hv
            · exact h v hv
            · simp only [List.mem_singleton] at hv
              subst hv
              exact ⟨poll, hpoll, rfl, hlt⟩

theorem pollStep_preserves_valid (db db' : PollDb) (hstep : PollStep db db')
    (h : VotesValid db) : VotesValid db' := by
  obtain ⟨huniq, hvotes⟩ := h
  cases hstep with
  | create p hfresh hended =>
    constructor
    · intro a ha b hb hid
      simp only [List.mem_append, List.mem_singleton] at ha hb
      rcases ha with ha | ha <;> rcases hb with hb | hb
      · exact huniq a ha b hb hid
      · subst hb; exact absurd hid (hfresh a ha)
      · subst ha; exact absurd hid.symm (hfresh b hb)
      · subst ha; subst hb; rfl
    · intro v hv
      obtain ⟨p', hp', hid, hlt⟩ := hvotes v hv
      exact ⟨p', List.mem_append_left _ hp', hid, hlt⟩
  | reactionAdd botUserId payload =>
    exact ⟨huniq, reactionAdd_preserves_valid botUserId db.polls db.votes payload hvotes⟩
  | finalize pollId =>
    constructor
    · intro a ha b hb hid
      simp only [List.mem_map] at ha hb
      obtain ⟨a0, ha0, haeq⟩ := ha
      obtain ⟨b0, hb0, hbeq⟩ := hb
      have hida : a.poll_id = a0.poll_id := by
        subst haeq; split <;> rfl
      have hidb : b.poll_id = b0.poll_id := by
        subst hbeq; split <;> rfl
      have : a0 = b0 := huniq a0 ha0 b0 hb0 (by rw [← hida, ← hidb, hid])
      subst this
      rw [← haeq, ← hbeq]
    · intro v hv
      obtain ⟨p', hp', hid, hlt⟩ := hvotes v hv
      refine ⟨if p'.poll_id = pollId then { p' with ended := true } else p', ?_, ?_, ?_⟩
      · exact List.mem_map_of_mem _ hp'
      · split <;> simpa using hid
      · split <;> simpa using hlt

theorem pollReachable_valid (db : PollDb) (h : PollReachable db) : VotesValid db := by
  induction h with
  | refl => exact ⟨by simp, by simp⟩
  | tail _ hstep ih => exact pollStep_preserves_valid _ _ hstep ih

theorem allocateTicketNumber_eq (config : Option TicketConfigRow) :
    allocateTicketNumber config = currentCounter config + 1 := by
  cases config with
  | none => rfl
  | some c =>
    cases h : c.ticket_counter with
    | none => simp [allocateTicketNumber, currentCounter, h]
    | some n =>
      by_cases hn : n = 0 <;> simp [allocateTicketNumber, currentCounter, h, hn]

theorem currentCounter_persist (config : Option TicketConfigRow) (guildId n : Nat) :
    currentCounter (some (persistCounter config guildId n)) = n := by
  cases config <;> rfl

theorem allocSeq_increasing (guildId : Nat) :
    ∀ (k : Nat) (config : Option TicketConfigRow),
      (allocSeq config guildId k).Pairwise (· < ·) ∧
      ∀ x ∈ allocSeq config guildId k, currentCounter config < x := by
  intro k
  induction k with
  | zero => intro config; simp [allocSeq]
  | succ k ih =>
    intro config
    obtain ⟨hpair, hgt⟩ := ih (some (persistCounter config guildId (allocateTicketNumber config)))
    have hcur := currentCounter_persist config guildId (allocateTicketNumber config)
    rw [hcur] at hgt
    constructor
    · simp only [allocSeq, List.pairwise_cons]
      exact ⟨hgt, hpair⟩
    · intro x hx
      simp only [allocSeq, List.mem_cons] at hx
      rcases hx with hx | hx
      · rw [hx, allocateTicketNumber_eq]; omega
      · have h1 := hgt x hx
        have h2 := allocateTicketNumber_eq config
        omega

/-- C2: under the allocator lock, `_create_ticket_channel` reads the
guild's current counter (0 when no row exists or the column is NULL),
computes next = current + 1, persists next back, and uses next as the
ticket number; hence across any sequence of completed allocations for one
guild every allocated value is strictly greater than all previously
allocated values. -/
theorem allocator_strictly_increasing (config : Option TicketConfigRow)
    (guildId k : Nat) :
    allocateTicketNumber config = currentCounter config + 1 ∧
    currentCounter (some (persistCounter config guildId (allocateTicketNumber config))) =
      allocateTicketNumber config ∧
    (allocSeq config guildId k).Pairwise (· < ·) :=
  ⟨allocateTicketNumber_eq config, currentCounter_persist config guildId _,
    (allocSeq_increasing guildId k config).1⟩

/-- C9: the `poll_votes` table is written only by reaction-add handling:
dispatching a raw reaction-remove event (whose only listener across the
bot is the reaction-roles cog, which performs no database write) leaves
the stored ballots — indeed the whole database — unchanged, whatever
Discord-side role effects it produces. -/
theorem reaction_remove_preserves_ballots (botUserId : Nat) (db : DbState)
    (env : RemoveEnv) (payload : RawReactionPayload) :
    (dispatchReactionRemove botUserId db env payload).1.poll_votes = db.poll_votes ∧
    (dispatchReactionRemove botUserId db env payload).1 = db :=
  ⟨rfl, rfl⟩

/-- C10: in every reachable state of the poll subsystem, every stored
ballot's `option_index` is a valid index into its poll's options list, so
the tally loop of `_end_poll` (which indexes `vote_counts` by each stored
`option_index`) never indexes out of range: the tally always yields a
count list of the poll's arity instead of the `IndexError` case. -/
theorem poll_votes_option_index_in_range (db : PollDb) (hreach : PollReachable db) :
    ∀ p ∈ db.polls, ∃ counts,
      tallyVotes p.options (db.votes.filter (fun v => v.poll_id == p.poll_id)) =
        some counts ∧ counts.length = p.options.length := by
  obtain ⟨huniq, hvalid⟩ := pollReachable_valid db hreach
  intro p hp
  apply tallyVotes_some
  intro v hv
  rw [List.mem_filter] at hv
  obtain ⟨hvmem, hvid⟩ := hv
  obtain ⟨q, hq, hqid, hlt⟩ := hvalid v hvmem
  have hvp : v.poll_id = p.poll_id := beq_iff_eq.mp hvid
  have hqp : q = p := huniq q hq p hp (by rw [hqid, hvp])
  rw [← hqp]
  exact hlt

def c10Poll : PollRow :=
  { poll_id := 1, guild_id := 1, channel_id := 2, message_id := 10,
    question := "Pizza?", options := ["Yes", "No"], end_time := 0, ended := false }

def c10Payload : RawReactionPayload :=
  { user_id := 7, message_id := 10, guild_id := 1, channel_id := 2, emoji := "1️⃣" }

def c10Db : PollDb :=
  { polls := [c10Poll], votes := [{ poll_id := 1, user_id := 7, option_index := 0 }] }

theorem poll_votes_option_index_in_range_witness :
    PollReachable c10Db ∧ ∃ counts,
      tallyVotes c10Poll.options (c10Db.votes.filter (fun v => v.poll_id == c10Poll.poll_id)) =
        some counts ∧ counts.length = c10Poll.options.length := by
  have h1 : PollStep { polls := [], votes := [] } { polls := [c10Poll], votes := [] } :=
    PollStep.create { polls := [], votes := [] } c10Poll (by simp) rfl
  have hcomp : on_raw_reaction_add 99 [c10Poll] [] c10Payload = c10Db.votes := by decide
  have h2 : PollStep { polls := [c10Poll], votes := [] } c10Db := by
    have hstep := PollStep.reactionAdd { polls := [c10Poll], votes := [] } 99 c10Payload
    rw [hcomp] at hstep
    exact hstep
  have hreach : PollReachable c10Db :=
    Relation.ReflTransGen.tail (Relation.ReflTransGen.single h1) h2
  exact ⟨hreach, poll_votes_option_index_in_range c10Db hreach c10Poll (by simp [c10Db])⟩

def c4Tickets : List TicketRow :=
  [{ guild_id := 1, channel_id := 100, user_id := 5, status := "open" }]

def c4Env : TicketEnv :=
  { channelIds := [], categoryOk := true, createChannelOk := true,
    newChannelId := 200, sendOk := true }

/-- C4 counterexample: user 5 of guild 1 already has an open ticket
(row for channel 100), but that channel no longer resolves via
`guild.get_channel`, so the duplicate-open guard of
`_create_ticket_channel` falls through: the request is NOT rejected and a
second open row for the same (guild, user) pair is inserted. -/
theorem duplicate_open_ticket_cex :
    (c4Tickets.filter (fun t =>
        t.guild_id == 1 && t.user_id == 5 && t.status == "open")).length = 1 ∧
    (create_ticket_channel c4Tickets none c4Env 1 5).1 = TicketResult.created 200 ∧
    ((create_ticket_channel c4Tickets none c4Env 1 5).2.1.filter (fun t =>
        t.guild_id == 1 && t.user_id == 5 && t.status == "open")).length = 2 := by
  decide

/-- C4 (amended): a ticket-creation request by a user who already has an
open ticket in the same guild is rejected with a message referencing the
existing ticket's channel, and no second row is inserted, provided the
stored channel id still resolves via `guild.get_channel`; when the stored
channel no longer exists, the guard falls through and a second open row
is created. -/
theorem duplicate_open_ticket_rejected (tickets : List TicketRow)
    (config : Option TicketConfigRow) (env : TicketEnv) (guildId userId : Nat)
    (t : TicketRow)
    (hfind : tickets.find? (fun t =>
      t.guild_id == guildId && t.user_id == userId && t.status == "open") = some t)
    (hchan : env.channelIds.contains t.channel_id = true) :
    create_ticket_channel tickets config env guildId userId =
      (TicketResult.rejected t.channel_id, tickets, config) := by
  unfold create_ticket_channel
  rw [hfind]
  have hmem : t.channel_id ∈ env.channelIds := by simpa using hchan
  simp [hmem]

def c4wEnv : TicketEnv :=
  { channelIds := [100], categoryOk := true, createChannelOk := true,
    newChannelId := 200, sendOk := true }

theorem duplicate_open_ticket_rejected_witness :
    create_ticket_channel c4Tickets none c4wEnv 1 5 =
      (TicketResult.rejected 100, c4Tickets, none) :=
  duplicate_open_ticket_rejected c4Tickets none c4wEnv 1 5
    { guild_id := 1, channel_id := 100, user_id := 5, status := "open" }
    (by decide) (by decide)

theorem giveaway_setEnded_iff (env : GiveawayEnv) (g : GiveawayRow) :
    GAction.setEnded ∈ end_giveaway env g ↔
      env.guildExists = true ∧ env.channelExists = true ∧
      env.fetchMessageOk = true ∧ env.messageIsNone = false ∧
      env.sendOk = true ∧ (env.tadaReaction = none ∨ env.fetchUsersOk = true) := by
  obtain ⟨ge, ce, fm, mn, tr, fu, so, eo, sd⟩ := env
  rcases tr with _ | us <;>
    cases ge <;> cases ce <;> cases fm <;> cases mn <;> cases so <;>
      cases fu <;> cases eo <;>
        simp [end_giveaway] <;> (split <;> simp)

theorem poll_setEnded_iff (penv : PollEnv) (p : PollRow) (vs : List PollVoteRow) :
    PAction.setEnded ∈ end_poll penv p vs ↔
      penv.guildExists = true ∧ penv.channelExists = true ∧ penv.sendOk = true ∧
      (tallyVotes p.options (vs.filter (fun v => v.poll_id == p.poll_id))).isSome = true ∧
      p.options.length ≤ numberEmojis.length := by
  obtain ⟨ge, ce, so, eo⟩ := penv
  rcases htal : tallyVotes p.options (vs.filter (fun v => v.poll_id == p.poll_id)) with _ | counts <;>
    by_cases hlen : numberEmojis.length < p.options.length <;>
      cases ge <;> cases ce <;> cases so <;> cases eo <;>
        simp [end_poll, htal, hlen] <;> omega

def c1FailEnv : GiveawayEnv :=
  { guildExists := true, channelExists := true, fetchMessageOk := true,
    messageIsNone := false, tadaReaction := some [{ id := 7, bot := false }],
    fetchUsersOk := true, sendOk := false, editOk := true, seed := 0 }

def c1OkEnv : GiveawayEnv :=
  { guildExists := true, channelExists := true, fetchMessageOk := true,
    messageIsNone := false, tadaReaction := some [{ id := 7, bot := false }],
    fetchUsersOk := true, sendOk := true, editOk := true, seed := 0 }

def c1Row : GiveawayRow :=
  { giveaway_id := 1, guild_id := 1, channel_id := 2, message_id := 3,
    prize := "Gift Card", winners_count := 1, end_time := 0, ended := false }

def c1PollEnv : PollEnv :=
  { guildExists := true, channelExists := true, sendOk := true, editOk := true }

/-- C1 counterexample: with one entrant present but the result
`channel.send` failing, `_end_giveaway` raises into its `except` handler
before reaching the `UPDATE ... SET ended = 1`, so the row is left with
`ended = false`; and in the fully successful run the write is not the
last action of the finalizer — the original-message edit follows it. -/
theorem finalize_write_unconditional_cex :
    giveawayEndedAfter c1FailEnv c1Row = false ∧
    end_giveaway c1FailEnv c1Row = [GAction.logError] ∧
    end_giveaway c1OkEnv c1Row =
      [GAction.sendWinners [7], GAction.setEnded, GAction.editOriginal] := by
  decide

/-- C1 (amended): in both finalizers the `finalized = true` write executes
only in runs where the preceding notification steps (message/reaction
retrieval and the result-message send) succeeded; when the notification
step fails the write is skipped and the row keeps `finalized = false` for
retry on a later tick.  When the notification succeeds the write does
execute, and it is followed only by the best-effort edit of the original
announcement, whose failure does not undo it. -/
theorem finalize_write_requires_notification (env : GiveawayEnv) (g : GiveawayRow)
    (penv : PollEnv) (p : PollRow) (vs : List PollVoteRow) :
    (GAction.setEnded ∈ end_giveaway env g → env.sendOk = true) ∧
    (env.sendOk = false → giveawayEndedAfter env g = g.ended) ∧
    (PAction.setEnded ∈ end_poll penv p vs → penv.sendOk = true) ∧
    (penv.sendOk = false → pollEndedAfter penv p vs = p.ended) ∧
    (env.guildExists = true → env.channelExists = true →
      env.fetchMessageOk = true → env.messageIsNone = false →
      env.sendOk = true → (env.tadaReaction = none ∨ env.fetchUsersOk = true) →
      giveawayEndedAfter env g = true) ∧
    (penv.guildExists = true → penv.channelExists = true → penv.sendOk = true →
      (tallyVotes p.options (vs.filter (fun v => v.poll_id == p.poll_id))).isSome = true →
      p.options.length ≤ numberEmojis.length →
      pollEndedAfter penv p vs = true) := by
  refine ⟨?_, ?_, ?_, ?_, ?_, ?_⟩
  · intro hmem
    exact ((giveaway_setEnded_iff env g).mp hmem).2.2.2.2.1
  · intro hs
    have hnot : GAction.setEnded ∉ end_giveaway env g := by
      intro hmem
      have := ((giveaway_setEnded_iff env g).mp hmem).2.2.2.2.1
      rw [hs] at this
      exact Bool.false_ne_true this
    simp [giveawayEndedAfter, hnot]
  · intro hmem
    exact ((poll_setEnded_iff penv p vs).mp hmem).2.2.1
  · intro hs
    have hnot : PAction.setEnded ∉ end_poll penv p vs := by
      intro hmem
      have := ((poll_setEnded_iff penv p vs).mp hmem).2.2.1
      rw [hs] at this
      exact Bool.false_ne_true this
    simp [pollEndedAfter, hnot]
  · intro h1 h2 h3 h4 h5 h6
    have hmem : GAction.setEnded ∈ end_giveaway env g :=
      (giveaway_setEnded_iff env g).mpr ⟨h1, h2, h3, h4, h5, h6⟩
    simp [giveawayEndedAfter, hmem]
  · intro h1 h2 h3 h4 h5
    have hmem : PAction.setEnded ∈ end_poll penv p vs :=
      (poll_setEnded_iff penv p vs).mpr ⟨h1, h2, h3, h4, h5⟩
    simp [pollEndedAfter, hmem]

theorem finalize_write_requires_notification_witness :
    giveawayEndedAfter c1OkEnv c1Row = true ∧
    pollEndedAfter c1PollEnv c10Poll [] = true :=
  ⟨(finalize_write_requires_notification c1OkEnv c1Row c1PollEnv c10Poll
      []).2.2.2.2.1 rfl rfl rfl rfl rfl (Or.inr rfl),
   (finalize_write_requires_notification c1OkEnv c1Row c1PollEnv c10Poll
      []).2.2.2.2.2 rfl rfl rfl (by decide) (by decide)⟩

theorem tick_of_ended (env : GiveawayEnv) (now : Int) (g : GiveawayRow)
    (h : g.ended = true) : tick_giveaway_row env now g = (g, []) := by
  simp [tick_giveaway_row, h]

theorem tick_poll_of_ended (penv : PollEnv) (now : Int) (p : PollRow)
    (vs : List PollVoteRow) (h : p.ended = true) :
    tick_poll_row penv now p vs = (p, []) := by
  simp [tick_poll_row, h]

/-- C3: for both TimedTask kinds (giveaway and poll), once `ended` is
true it never reverts, and finalization runs at most once: a tick on an
already-ended row performs no work (the query selects only `ended = 0`
rows), a tick can never set `ended` back to false, and after a tick that
successfully finalized a row every later tick — whatever its environment
or ballot table then is — produces no further action. -/
theorem finalized_never_reverts (env env2 : GiveawayEnv) (now now2 : Int)
    (g : GiveawayRow) (penv penv2 : PollEnv) (p : PollRow)
    (vs vs2 : List PollVoteRow) :
    (g.ended = true → tick_giveaway_row env now g = (g, [])) ∧
    ((tick_giveaway_row env now g).1.ended = false → g.ended = false) ∧
    (g.ended = false → g.end_time ≤ now → GAction.setEnded ∈ end_giveaway env g →
      (tick_giveaway_row env now g).1.ended = true ∧
      tick_giveaway_row env2 now2 (tick_giveaway_row env now g).1 =
        ((tick_giveaway_row env now g).1, [])) ∧
    (p.ended = true → tick_poll_row penv now p vs = (p, [])) ∧
    ((tick_poll_row penv now p vs).1.ended = false → p.ended = false) ∧
    (p.ended = false → p.end_time ≤ now → PAction.setEnded ∈ end_poll penv p vs →
      (tick_poll_row penv now p vs).1.ended = true ∧
      tick_poll_row penv2 now2 (tick_poll_row penv now p vs).1 vs2 =
        ((tick_poll_row penv now p vs).1, [])) := by
  refine ⟨?_, ?_, ?_, ?_, ?_, ?_⟩
  · intro h
    simp [tick_giveaway_row, h]
  · intro h
    by_cases hc : g.ended = false ∧ g.end_time ≤ now
    · exact hc.1
    · simpa [tick_giveaway_row, hc] using h
  · intro hE ht hmem
    have hfst : (tick_giveaway_row env now g).1.ended = true := by
      simp [tick_giveaway_row, hE, ht, giveawayEndedAfter, hmem]
    exact ⟨hfst, tick_of_ended env2 now2 _ hfst⟩
  · intro h
    simp [tick_poll_row, h]
  · intro h
    by_cases hc : p.ended = false ∧ p.end_time ≤ now
    · exact hc.1
    · simpa [tick_poll_row, hc] using h
  · intro hE ht hmem
    have hfst : (tick_poll_row penv now p vs).1.ended = true := by
      simp [tick_poll_row, hE, ht, pollEndedAfter, hmem]
    exact ⟨hfst, tick_poll_of_ended penv2 now2 _ vs2 hfst⟩

theorem finalized_never_reverts_witness :
    tick_giveaway_row c1OkEnv 5 { c1Row with ended := true } =
      ({ c1Row with ended := true }, []) ∧
    (tick_giveaway_row c1OkEnv 5 c1Row).1.ended = true ∧
    tick_giveaway_row c1FailEnv 6 (tick_giveaway_row c1OkEnv 5 c1Row).1 =
      ((tick_giveaway_row c1OkEnv 5 c1Row).1, []) ∧
    tick_poll_row c1PollEnv 5 { c10Poll with ended := true } [] =
      ({ c10Poll with ended := true }, []) ∧
    (tick_poll_row c1PollEnv 5 c10Poll []).1.ended = true ∧
    tick_poll_row c1PollEnv 6 (tick_poll_row c1PollEnv 5 c10Poll []).1 [] =
      ((tick_poll_row c1PollEnv 5 c10Poll []).1, []) :=
  ⟨(finalized_never_reverts c1OkEnv c1FailEnv 5 6 { c1Row with ended := true }
      c1PollEnv c1PollEnv { c10Poll with ended := true } [] []).1 rfl,
   ((finalized_never_reverts c1OkEnv c1FailEnv 5 6 c1Row
      c1PollEnv c1PollEnv c10Poll [] []).2.2.1 rfl (by decide) (by decide)).1,
   ((finalized_never_reverts c1OkEnv c1FailEnv 5 6 c1Row
      c1PollEnv c1PollEnv c10Poll [] []).2.2.1 rfl (by decide) (by decide)).2,
   (finalized_never_reverts c1OkEnv c1FailEnv 5 6 { c1Row with ended := true }
      c1PollEnv c1PollEnv { c10Poll with ended := true } [] []).2.2.2.1 rfl,
   ((finalized_never_reverts c1OkEnv c1FailEnv 5 6 c1Row
      c1PollEnv c1PollEnv c10Poll [] []).2.2.2.2.2 rfl (by decide) (by decide)).1,
   ((finalized_never_reverts c1OkEnv c1FailEnv 5 6 c1Row
      c1PollEnv c1PollEnv c10Poll [] []).2.2.2.2.2 rfl (by decide) (by decide)).2⟩

/-- C6: a giveaway whose entrant set at finalize time contains no non-bot
user (either the reaction object is absent or every reactor is a bot)
produces the distinct no-entrants result message and the `ended = 1`
write, with no error logged — provided the channel lookups and the send
succeed. -/
theorem zero_entrants_no_crash (env : GiveawayEnv) (g : GiveawayRow)
    (h1 : env.guildExists = true) (h2 : env.channelExists = true)
    (h3 : env.fetchMessageOk = true) (h4 : env.messageIsNone = false)
    (h5 : env.fetchUsersOk = true) (h6 : env.sendOk = true)
    (h7 : ∀ us, env.tadaReaction = some us → nonBotEntrants us = []) :
    (end_giveaway env g = [GAction.sendNoOne, GAction.setEnded] ∨
     end_giveaway env g = [GAction.sendNoValid, GAction.setEnded]) ∧
    giveawayEndedAfter env g = true ∧
    GAction.logError ∉ end_giveaway env g := by
  have ht : end_giveaway env g = [GAction.sendNoOne, GAction.setEnded] ∨
      end_giveaway env g = [GAction.sendNoValid, GAction.setEnded] := by
    rcases htr : env.tadaReaction with _ | us
    · left
      simp [end_giveaway, h1, h2, h3, h4, htr, h6]
    · right
      have hempty : (nonBotEntrants us).isEmpty = true := by
        simp [h7 us htr]
      simp [end_giveaway, h1, h2, h3, h4, h5, htr, h6, hempty]
  refine ⟨ht, ?_, ?_⟩
  · rcases ht with ht | ht <;> simp [giveawayEndedAfter, ht]
  · rcases ht with ht | ht <;> rw [ht] <;> decide

def c6Env : GiveawayEnv :=
  { guildExists := true, channelExists := true, fetchMessageOk := true,
    messageIsNone := false, tadaReaction := some [{ id := 3, bot := true }],
    fetchUsersOk := true, sendOk := true, editOk := true, seed := 0 }

theorem zero_entrants_no_crash_witness :
    (end_giveaway c6Env c1Row = [GAction.sendNoOne, GAction.setEnded] ∨
     end_giveaway c6Env c1Row = [GAction.sendNoValid, GAction.setEnded]) ∧
    giveawayEndedAfter c6Env c1Row = true ∧
    GAction.logError ∉ end_giveaway c6Env c1Row :=
  zero_entrants_no_crash c6Env c1Row rfl rfl rfl rfl rfl rfl
    (fun us h => by cases h; decide)

/-- Iterated single-row giveaway ticks with a fixed environment. -/
def iterate_tick_giveaway (env : GiveawayEnv) (now : Int) : Nat → GiveawayRow → GiveawayRow
  | 0, g => g
  | k + 1, g => iterate_tick_giveaway env now k (tick_giveaway_row env now g).1

/-- Iterated single-row poll ticks with a fixed environment. -/
def iterate_tick_poll (penv : PollEnv) (now : Int) (vs : List PollVoteRow) :
    Nat → PollRow → PollRow
  | 0, p => p
  | k + 1, p => iterate_tick_poll penv now vs k (tick_poll_row penv now p vs).1

/-- C7: when the guild or the channel of a TimedTask row no longer
exists, the finalizer returns without any action: nothing is sent, the
row is unchanged (in particular `ended` stays false if it was), and this
repeats on every later tick while the environment stays that way. -/
theorem missing_guild_or_channel_skips_row (env : GiveawayEnv) (penv : PollEnv)
    (now : Int) (g : GiveawayRow) (p : PollRow) (vs : List PollVoteRow)
    (hg : env.guildExists = false ∨ env.channelExists = false)
    (hp : penv.guildExists = false ∨ penv.channelExists = false) :
    end_giveaway env g = [] ∧ (tick_giveaway_row env now g).1 = g ∧
    (∀ k, iterate_tick_giveaway env now k g = g) ∧
    end_poll penv p vs = [] ∧ (tick_poll_row penv now p vs).1 = p ∧
    (∀ k, iterate_tick_poll penv now vs k p = p) := by
  have hge : end_giveaway env g = [] := by
    rcases hg with h | h <;> simp [end_giveaway, h]
  have hpe : end_poll penv p vs = [] := by
    rcases hp with h | h <;> simp [end_poll, h]
  have htickg : (tick_giveaway_row env now g).1 = g := by
    unfold tick_giveaway_row
    split
    · have : giveawayEndedAfter env g = g.ended := by
        simp [giveawayEndedAfter, hge]
      rw [this]
    · rfl
  have htickp : (tick_poll_row penv now p vs).1 = p := by
    unfold tick_poll_row
    split
    · have : pollEndedAfter penv p vs = p.ended := by
        simp [pollEndedAfter, hpe]
      rw [this]
    · rfl
  refine ⟨hge, htickg, ?_, hpe, htickp, ?_⟩
  · intro k
    induction k with
    | zero => rfl
    | succ k ih =>
      rw [iterate_tick_giveaway, htickg]
      exact ih
  · intro k
    induction k with
    | zero => rfl
    | succ k ih =>
      rw [iterate_tick_poll, htickp]
      exact ih

def c7Env : GiveawayEnv :=
  { guildExists := false, channelExists := true, fetchMessageOk := true,
    messageIsNone := false, tadaReaction := none, fetchUsersOk := true,
    sendOk := true, editOk := true, seed := 0 }

def c7PollEnv : PollEnv :=
  { guildExists := false, channelExists := true, sendOk := true, editOk := true }

theorem missing_guild_or_channel_skips_row_witness :
    end_giveaway c7Env c1Row = [] ∧ (tick_giveaway_row c7Env 5 c1Row).1 = c1Row ∧
    iterate_tick_giveaway c7Env 5 3 c1Row = c1Row ∧
    end_poll c7PollEnv c10Poll [] = [] ∧
    (tick_poll_row c7PollEnv 5 c10Poll []).1 = c10Poll ∧
    iterate_tick_poll c7PollEnv 5 [] 3 c10Poll = c10Poll :=
  ⟨(missing_guild_or_channel_skips_row c7Env c7PollEnv 5 c1Row c10Poll []
      (Or.inl rfl) (Or.inl rfl)).1,
   (missing_guild_or_channel_skips_row c7Env c7PollEnv 5 c1Row c10Poll []
      (Or.inl rfl) (Or.inl rfl)).2.1,
   (missing_guild_or_channel_skips_row c7Env c7PollEnv 5 c1Row c10Poll []
      (Or.inl rfl) (Or.inl rfl)).2.2.1 3,
   (missing_guild_or_channel_skips_row c7Env c7PollEnv 5 c1Row c10Poll []
      (Or.inl rfl) (Or.inl rfl)).2.2.2.1,
   (missing_guild_or_channel_skips_row c7Env c7PollEnv 5 c1Row c10Poll []
      (Or.inl rfl) (Or.inl rfl)).2.2.2.2.1,
   (missing_guild_or_channel_skips_row c7Env c7PollEnv 5 c1Row c10Poll []
      (Or.inl rfl) (Or.inl rfl)).2.2.2.2.2 3⟩

/-- C8: a giveaway finalized with a nonempty list of non-bot entrants and
configured winner count W announces exactly min(W, E) pairwise-distinct
winners, each drawn from the E entrants present at finalize time; and a
reaction added after finalization has no effect because the next tick
(whatever its environment, hence whatever the reaction set then is)
performs no action on the now-ended row. -/
theorem winners_min_distinct_from_entrants (env env2 : GiveawayEnv)
    (now now2 : Int) (g : GiveawayRow) (us : List DiscordUser)
    (h1 : env.guildExists = true) (h2 : env.channelExists = true)
    (h3 : env.fetchMessageOk = true) (h4 : env.messageIsNone = false)
    (hr : env.tadaReaction = some us) (h5 : env.fetchUsersOk = true)
    (h6 : env.sendOk = true) (hne : nonBotEntrants us ≠ [])
    (hnd : (nonBotEntrants us).Nodup) :
    ∃ ws, GAction.sendWinners ws ∈ end_giveaway env g ∧
      ws.length = min g.winners_count (nonBotEntrants us).length ∧
      ws.Nodup ∧ (∀ w ∈ ws, w ∈ nonBotEntrants us) ∧
      (g.ended = false → g.end_time ≤ now →
        tick_giveaway_row env2 now2 (tick_giveaway_row env now g).1 =
          ((tick_giveaway_row env now g).1, [])) := by
  have hempty : (nonBotEntrants us).isEmpty = false := by
    cases hh : (nonBotEntrants us).isEmpty
    · rfl
    · exact absurd (List.isEmpty_iff.mp hh) hne
  refine ⟨randomSample env.seed (nonBotEntrants us)
      (min g.winners_count (nonBotEntrants us).length), ?_, ?_, ?_, ?_, ?_⟩
  · simp only [end_giveaway, h1, h2, h3, h4, hr, h5, h6, hempty]
    simp only [Bool.true_eq_false, if_false, Bool.false_eq_true, if_true]
    cases env.editOk <;> simp
  · rw [randomSample_length, Nat.min_assoc, Nat.min_self]
  · exact randomSample_nodup _ _ _ hnd
  · exact randomSample_subset _ _ _
  · intro hE ht
    have hmem : GAction.setEnded ∈ end_giveaway env g :=
      (giveaway_setEnded_iff env g).mpr ⟨h1, h2, h3, h4, h6, Or.inr h5⟩
    have hfst : (tick_giveaway_row env now g).1.ended = true := by
      simp [tick_giveaway_row, hE, ht, giveawayEndedAfter, hmem]
    exact tick_of_ended env2 now2 _ hfst

theorem winners_min_distinct_from_entrants_witness :
    ∃ ws, GAction.sendWinners ws ∈ end_giveaway c1OkEnv c1Row ∧
      ws.length = min c1Row.winners_count
        (nonBotEntrants [{ id := 7, bot := false }]).length ∧
      ws.Nodup ∧ (∀ w ∈ ws, w ∈ nonBotEntrants [{ id := 7, bot := false }]) ∧
      (c1Row.ended = false → c1Row.end_time ≤ 5 →
        tick_giveaway_row c1OkEnv 6 (tick_giveaway_row c1OkEnv 5 c1Row).1 =
          ((tick_giveaway_row c1OkEnv 5 c1Row).1, [])) :=
  winners_min_distinct_from_entrants c1OkEnv c1OkEnv 5 6 c1Row
    [{ id := 7, bot := false }] rfl rfl rfl rfl rfl rfl rfl (by decide) (by decide)

theorem filter_map_update (pid uid idx : Nat) (votes : List PollVoteRow) :
    (votes.map (fun v =>
        if v.poll_id == pid && v.user_id == uid then
          { v with option_index := idx } else v)).filter
      (fun v => v.poll_id == pid && v.user_id == uid) =
    (votes.filter (fun v => v.poll_id == pid && v.user_id == uid)).map
      (fun v => { v with option_index := idx }) := by
  induction votes with
  | nil => rfl
  | cons a t ih =>
    by_cases hc : (a.poll_id == pid && a.user_id == uid) = true
    · have hpid : a.poll_id = pid := beq_iff_eq.mp ((Bool.and_eq_true _ _).mp hc).1
      have huid : a.user_id = uid := beq_iff_eq.mp ((Bool.and_eq_true _ _).mp hc).2
      simp [hpid, huid]
      simpa using ih
    · have hprop : ¬ (a.poll_id = pid ∧ a.user_id = uid) := by
        simpa using hc
      simp [hprop]
      simpa using ih

/-- C5: when a voter who already has a stored ballot for a poll casts
another vote (reaction-add with a valid option emoji on that poll's
message), the handler updates the existing `(poll_id, user_id)` row's
`option_index` in place instead of inserting an additional row: the table
keeps its size, the voter's rows collapse to exactly the single row
carrying the latest choice (so the end-of-poll tally counts this voter
once, at the latest option), and every other row is left as it was. -/
theorem revote_overwrites_in_place (botUserId : Nat) (polls : List PollRow)
    (votes : List PollVoteRow) (payload : RawReactionPayload) (poll : PollRow)
    (idx : Nat)
    (hbot : (payload.user_id == botUserId) = false)
    (hfind : findPoll polls payload.message_id = some poll)
    (hemoji : numberEmojis.findIdx? (fun e => e == payload.emoji) = some idx)
    (hlt : idx < poll.options.length)
    (hone : (votes.filter (fun v =>
      v.poll_id == poll.poll_id && v.user_id == payload.user_id)).length = 1) :
    (on_raw_reaction_add botUserId polls votes payload).length = votes.length ∧
    (on_raw_reaction_add botUserId polls votes payload).filter
        (fun v => v.poll_id == poll.poll_id && v.user_id == payload.user_id) =
      [{ poll_id := poll.poll_id, user_id := payload.user_id, option_index := idx }] ∧
    (∀ v ∈ on_raw_reaction_add botUserId polls votes payload,
      (v.poll_id == poll.poll_id && v.user_id == payload.user_id) = false →
      v ∈ votes) := by
  obtain ⟨w, hw⟩ := List.length_eq_one.mp hone
  have hwmem : w ∈ votes.filter (fun v =>
      v.poll_id == poll.poll_id && v.user_id == payload.user_id) := by
    rw [hw]; exact List.mem_singleton_self w
  have hwvotes := (List.mem_filter.mp hwmem).1
  have hwcond := (List.mem_filter.mp hwmem).2
  have hany : votes.any (fun v =>
      v.poll_id == poll.poll_id && v.user_id == payload.user_id) = true :=
    List.any_eq_true.mpr ⟨w, hwvotes, hwcond⟩
  have hnle : ¬ poll.options.length ≤ idx := by omega
  have hres : on_raw_reaction_add botUserId polls votes payload =
      votes.map (fun v =>
        if v.poll_id == poll.poll_id && v.user_id == payload.user_id then
          { v with option_index := idx } else v) := by
    unfold on_raw_reaction_add
    rw [hfind, hemoji]
    simp [hbot, hnle, hany]
  refine ⟨?_, ?_, ?_⟩
  · rw [hres, List.length_map]
  · rw [hres, filter_map_update, hw]
    have hpid : w.poll_id = poll.poll_id :=
      beq_iff_eq.mp ((Bool.and_eq_true _ _).mp hwcond).1
    have huid : w.user_id = payload.user_id :=
      beq_iff_eq.mp ((Bool.and_eq_true _ _).mp hwcond).2
    simp [hpid, huid]
  · intro v hv hvcond
    rw [hres] at hv
    obtain ⟨u, humem, hueq⟩ := List.mem_map.mp hv
    by_cases hu : (u.poll_id == poll.poll_id && u.user_id == payload.user_id) = true
    · rw [if_pos hu] at hueq
      rw [← hueq] at hvcond
      simp only at hvcond
      rw [hu] at hvcond
      exact absurd hvcond (by simp)
    · rw [if_neg hu] at hueq
      rw [← hueq]
      exact humem

def c5Payload : RawReactionPayload :=
  { user_id := 7, message_id := 10, guild_id := 1, channel_id := 2, emoji := "2️⃣" }

def c5Votes : List PollVoteRow := [{ poll_id := 1, user_id := 7, option_index := 0 }]

theorem revote_overwrites_in_place_witness :
    (on_raw_reaction_add 99 [c10Poll] c5Votes c5Payload).length = c5Votes.length ∧
    (on_raw_reaction_add 99 [c10Poll] c5Votes c5Payload).filter
        (fun v => v.poll_id == c10Poll.poll_id && v.user_id == c5Payload.user_id) =
      [{ poll_id := c10Poll.poll_id, user_id := c5Payload.user_id, option_index := 1 }] :=
  ⟨(revote_overwrites_in_place 99 [c10Poll] c5Votes c5Payload c10Poll 1
      (by decide) (by decide) (by decide) (by decide) (by decide)).1,
   (revote_overwrites_in_place 99 [c10Poll] c5Votes c5Payload c10Poll 1
      (by decide) (by decide) (by decide) (by decide) (by decide)).2.1⟩

end NPNBot
